import Mathlib

/-!
Shallow embedding of the kons-simulator core (Variable/Modifier valuation
engine, virtual clock, and the two containers) for checking the
natural-language specification against the code.

Conventions of the embedding:
* JavaScript numbers are modelled as rationals `ℚ` (the code performs only
  field arithmetic and comparisons on them), except for the exponential-decay
  factory which uses `Math.log2`/`Math.pow` and is modelled over `ℝ`.
* Mutable objects become explicit state passing: a method that mutates its
  receiver returns the updated receiver (paired with its return value).
* The doubly linked list of `containers.ts` is represented by the sequence of
  node payloads in `first → … → last` order; the `count` field of the source
  always equals the number of nodes, so `length` is the list length.
* The JS array backing `Minheap` is a `List` of (object, weight) nodes in
  array-index order.
* `Clock.NEVER` (a sentinel symbol distinct from every number) is modelled by
  `Option.none` where a field can hold it.
* Loops whose bound is not structural take an explicit fuel argument; callers
  pass a fuel that provably suffices, keeping every definition computable.
* Object identity (`===`) is modelled by value equality; scenarios use
  pairwise-distinct representations so the two coincide.
-/

namespace KonsSim

/-! ## containers.ts: LinkedList -/

/-- `LinkedList.push`: adds an object at the end of the list. -/
def LLpush {T : Type} (l : List T) (x : T) : List T := l ++ [x]

/-- `LinkedList.prepend`: adds an object at the beginning of the list. -/
def LLprepend {T : Type} (l : List T) (x : T) : List T := x :: l

/-- Backwards scan of `LinkedList.remove`, expressed on the reversed node
sequence: remove the first occurrence (= last occurrence of the original
order), reporting whether it was found. `removeNode` unlinks exactly the found
node and decrements `count`, which on the sequence of payloads is deletion of
that one position. -/
def removeFirstOcc {T : Type} [DecidableEq T] (x : T) : List T → List T × Bool
  | [] => ([], false)
  | y :: ys =>
    if y = x then (ys, true)
    else
      let r := removeFirstOcc x ys
      (y :: r.1, r.2)

/-- `LinkedList.remove(obj)`: iterates backwards from `last` comparing with
`===`, unlinks the first node found (the last occurrence) and returns `true`,
or returns `false` when no node matches. -/
def LLremove {T : Type} [DecidableEq T] (l : List T) (x : T) : List T × Bool :=
  let r := removeFirstOcc x l.reverse
  (r.1.reverse, r.2)

/-- The traversal state of `LinkedList.filterIterate`: `kept` holds, in
reverse, the nodes before the cursor that remain linked; `rest` holds the
cursor node and everything after it. One loop iteration of the source:
if the predicate holds, yield and step to `next`; otherwise unlink the cursor
node, set the cursor to `prev ?? first`, and then the for-loop update still
steps to `next`. When the unlinked node was the head (`kept = []`), the cursor
becomes the new head and the update immediately steps past it, so the new head
is neither yielded nor tested; when the list became empty the loop breaks.
Returns (yielded objects, remaining list). -/
def filterGo {T : Type} (p : T → Bool) : List T → List T → List T × List T
  | kept, [] => ([], kept.reverse)
  | kept, x :: xs =>
    if p x then
      let r := filterGo p (x :: kept) xs
      (x :: r.1, r.2)
    else
      match kept with
      | _ :: _ => filterGo p kept xs
      | [] =>
        match xs with
        | [] => ([], [])
        | y :: ys => filterGo p [y] ys

/-- `LinkedList.filterIterate(predicate)`: iterates from `first`, yielding
objects for which the predicate returns true and unlinking the others.
Returns (yielded objects in order, list contents afterwards). -/
def filterIterate {T : Type} (p : T → Bool) (l : List T) : List T × List T :=
  filterGo p [] l

/-! ## containers.ts: Minheap -/

/-- A node of the JS array backing `Minheap`: an object and its weight. -/
structure HeapNode (T : Type) where
  obj : T
  weight : ℚ

/-- `Minheap`: a binary min-heap stored in a JS array, modelled as the list of
nodes in array-index order. -/
structure Minheap (T : Type) where
  elements : List (HeapNode T)

/-- Empty heap (the constructor). -/
def Minheap.empty (T : Type) : Minheap T := ⟨[]⟩

def Minheap.length {T : Type} (h : Minheap T) : Nat := h.elements.length

def Minheap.isEmpty {T : Type} (h : Minheap T) : Bool := h.elements.isEmpty

/-- `Minheap.peek()`: the object with the lowest weight; throwing on an empty
heap is modelled by returning `none`. -/
def Minheap.peekQ {T : Type} (h : Minheap T) : Option T :=
  (h.elements.head?).map HeapNode.obj

/-- `Minheap.peekWeight()`: the lowest weight; `none` models the throw on an
empty heap. -/
def Minheap.peekWeightQ {T : Type} (h : Minheap T) : Option ℚ :=
  (h.elements.head?).map HeapNode.weight

/-- `this.elements[i].weight`, used only at indices that are in bounds; out of
bounds reads default to `0`. -/
def weightAt {T : Type} (l : List (HeapNode T)) (i : Nat) : ℚ :=
  ((l.get? i).map HeapNode.weight).getD 0

/-- Swap of two array slots, `[a[i], a[j]] = [a[j], a[i]]`. -/
def swapAt {T : Type} (l : List T) (i j : Nat) : List T :=
  match l.get? i, l.get? j with
  | some a, some b => (l.set i b).set j a
  | _, _ => l

/-- The sift-down loop of `Minheap.pop`: swap the node at `i` with its
smallest child until the heap property is restored. `fuel` bounds the loop;
the index strictly increases each iteration, so `l.length` steps suffice. -/
def siftDown {T : Type} (fuel : Nat) (l : List (HeapNode T)) (i : Nat) :
    List (HeapNode T) :=
  match fuel with
  | 0 => l
  | fuel + 1 =>
    let leftIndex := 2 * i + 1
    if leftIndex ≥ l.length then l
    else
      let rightIndex := leftIndex + 1
      let indexOfSmallest :=
        if rightIndex = l.length ∨ weightAt l leftIndex ≤ weightAt l rightIndex
        then leftIndex else rightIndex
      if weightAt l i ≤ weightAt l indexOfSmallest then l
      else siftDown fuel (swapAt l i indexOfSmallest) indexOfSmallest

/-- `Minheap.pop()`: removes and returns the object with the lowest weight;
`none` models the throw on an empty heap. The JS code takes `elements[0]`,
pops the last array slot, and if the array is still non-empty writes the
popped node into slot 0 and sifts it down. -/
def Minheap.popQ {T : Type} (h : Minheap T) : Option (T × Minheap T) :=
  match h.elements with
  | [] => none
  | firstNode :: restNodes =>
    match (firstNode :: restNodes).getLast? with
    | none => none
    | some lastNode =>
      let remaining := (firstNode :: restNodes).dropLast
      if remaining.isEmpty then some (firstNode.obj, ⟨[]⟩)
      else
        some
          (firstNode.obj,
            ⟨siftDown remaining.length (remaining.set 0 lastNode) 0⟩)

/-- The sift-up loop of `Minheap.push`: swap the node at `i` with its parent
(at index `(i - 1) / 2`) while the parent is heavier. `fuel` bounds the loop;
the index strictly decreases each iteration, so `i` steps suffice. -/
def siftUp {T : Type} (fuel : Nat) (l : List (HeapNode T)) (i : Nat) :
    List (HeapNode T) :=
  match fuel with
  | 0 => l
  | fuel + 1 =>
    if i = 0 then l
    else
      let parentIndex := (i - 1) / 2
      if weightAt l parentIndex ≤ weightAt l i then l
      else siftUp fuel (swapAt l parentIndex i) parentIndex

/-- `Minheap.push(obj, weight)`: append a node and sift it up from the last
index. -/
def Minheap.push {T : Type} (h : Minheap T) (obj : T) (weight : ℚ) :
    Minheap T :=
  let l := h.elements ++ [⟨obj, weight⟩]
  ⟨siftUp (l.length - 1) l (l.length - 1)⟩

/-! ## clock.js: Clock

The clock holds elapsed real milliseconds, elapsed game minutes, and a
min-heap of (callback, fire-time) pairs. Callbacks are modelled as opaque
tokens (`Nat`); "invoking" a callback appends its token to a fired log. The
`realMillisecondsPerGameMinute` constant of the source is `2000`. -/

structure ClockState where
  elapsedRealMilliseconds : ℚ
  elapsedGameMinutes : ℚ
  callbacks : Minheap Nat

/-- `new Clock()`: both elapsed counters start at zero, the queue empty. -/
def ClockState.init : ClockState := ⟨0, 0, Minheap.empty Nat⟩

def realMillisecondsPerGameMinute : ℚ := 2000

/-- `Clock.now()`: the current time in game minutes. -/
def ClockState.now (s : ClockState) : ℚ := s.elapsedGameMinutes

/-- `Clock.after(minutes)`: the timestamp `minutes` into the future. -/
def ClockState.after (s : ClockState) (minutes : ℚ) : ℚ := s.now + minutes

/-- `Clock.schedule(callback, time)`: if the timestamp has already passed
(`time ≤ now`), the callback is invoked immediately (it appears in the
returned fired log); otherwise it is pushed onto the queue keyed by `time`.
The `time !== Clock.NEVER` guard always passes for a numeric time, which is
the only kind modelled here. -/
def ClockState.schedule (s : ClockState) (callback : Nat) (time : ℚ) :
    ClockState × List Nat :=
  if time ≤ s.now then (s, [callback])
  else ({s with callbacks := s.callbacks.push callback time}, [])

/-- The drain loop of `Clock.update`: while the queue is non-empty and the
lowest fire-time is ≤ the new current time, pop and invoke the callback.
`fuel` bounds the loop; each iteration pops one node, so queue length + 1
steps suffice. Returns the remaining queue and the fired log in pop order. -/
def drainCallbacks (fuel : Nat) (h : Minheap Nat) (nowMinutes : ℚ) :
    Minheap Nat × List Nat :=
  match fuel with
  | 0 => (h, [])
  | fuel + 1 =>
    match h.peekWeightQ with
    | none => (h, [])
    | some w =>
      if w ≤ nowMinutes then
        match h.popQ with
        | none => (h, [])
        | some (cb, h2) =>
          let r := drainCallbacks fuel h2 nowMinutes
          (r.1, cb :: r.2)
      else (h, [])

/-- `Clock.update(delta)`: accumulate the real-time delta, recompute
`elapsedGameMinutes = elapsedRealMilliseconds / realMillisecondsPerGameMinute`,
then pop and invoke every callback whose fire-time is ≤ the new time. -/
def ClockState.update (s : ClockState) (delta : ℚ) : ClockState × List Nat :=
  let ms := s.elapsedRealMilliseconds + delta
  let minutes := ms / realMillisecondsPerGameMinute
  let r := drainCallbacks (s.callbacks.length + 1) s.callbacks minutes
  (⟨ms, minutes, r.1⟩, r.2)

/-! ## variable.js: modifiers

Modifier subclasses are duck-typed in the source: a `Variable` only calls
`value()` and `canBeRemoved()` on them. The embedding therefore keeps
`Variable` generic in the modifier type `M` together with the pair of
dispatched operations. Both operations depend on the current clock time,
which is passed explicitly. -/

structure ModifierOps (M : Type) where
  value : M → ℚ → ℚ
  canBeRemoved : M → ℚ → Bool

/-- `FixedModifier`: a flat bonus or malus until it (optionally) expires.
`duration = none` models both the `null` and the `Clock.NEVER` default, under
which `canBeRemoved()` never reports true. -/
structure FixedModifier where
  amount : ℚ
  duration : Option ℚ
  createdAt : ℚ
  deriving DecidableEq

/-- `FixedModifier.canBeRemoved()`: the duration is set and has elapsed. -/
def FixedModifier.canBeRemovedAt (m : FixedModifier) (now : ℚ) : Bool :=
  match m.duration with
  | none => false
  | some d => decide (now - m.createdAt ≥ d)

/-- `FixedModifier.value()`: the amount, or 0 once removable. -/
def FixedModifier.valueAt (m : FixedModifier) (now : ℚ) : ℚ :=
  if m.canBeRemovedAt now then 0 else m.amount

/-- The dispatched interface of `FixedModifier`. -/
def FixedModifier.ops : ModifierOps FixedModifier :=
  ⟨FixedModifier.valueAt, FixedModifier.canBeRemovedAt⟩

/-- `ManualModifier`: a functional modifier, defined by `func` on
`[0, duration]` and zero-valued outside it, whose progress is manually
managed (it starts at 0 and is only ever raised). Used as the fuel of a
`FurnaceVariable`. -/
structure ManualModifier where
  func : ℚ → ℚ
  duration : ℚ
  progress : ℚ

/-- `FunctionalModifier.canBeRemoved()` as inherited by `ManualModifier`:
the progress has reached the duration. -/
def ManualModifier.canBeRemoved (m : ManualModifier) : Bool :=
  decide (m.progress ≥ m.duration)

/-- `FunctionalModifier.value()` as inherited by `ManualModifier`:
`func(progress)`, or 0 once removable. -/
def ManualModifier.value (m : ManualModifier) : ℚ :=
  if m.canBeRemoved then 0 else m.func m.progress

/-! ## variable.js: Variable -/

/-- `Variable`: base value, bounds, the linked list of active modifiers, the
memoized `_cachedValue` and the `_lastRecomputed` timestamp
(`none` = `Clock.NEVER`). `min < max` is checked by the `BaseVariable`
constructor. -/
structure Variable (M : Type) where
  baseValue : ℚ
  min : ℚ
  max : ℚ
  modifiers : List M
  cachedValue : Option ℚ
  lastRecomputed : Option ℚ

/-- The `BaseVariable` constructor combined with the `Variable` constructor:
fails when `min ≥ max`; the modifier list starts empty and the memo is
invalid (`_lastRecomputed = Clock.NEVER`). -/
def Variable.make (M : Type) (baseValue mn mx : ℚ) :
    Except String (Variable M) :=
  if mn ≥ mx then .error "Min must be less than max"
  else .ok ⟨baseValue, mn, mx, [], none, none⟩

/-- `Variable._computeValue()`: when the memo timestamp differs from the
current time, re-sum `baseValue` plus the values of the modifiers that are
not removable, pruning removable ones in the same pass via
`filterIterate(m => !m.canBeRemoved())`, and memoize; otherwise return the
memo. In the source `_cachedValue` is always a number whenever
`_lastRecomputed` equals a clock time; the unreachable `none` case defaults
to 0. -/
def Variable.computeValue {M : Type} (ops : ModifierOps M) (v : Variable M)
    (now : ℚ) : ℚ × Variable M :=
  if v.lastRecomputed ≠ some now then
    let r := filterIterate (fun m => ! ops.canBeRemoved m now) v.modifiers
    let value := v.baseValue + (r.1.map (fun m => ops.value m now)).sum
    (value,
      {v with modifiers := r.2, cachedValue := some value,
              lastRecomputed := some now})
  else (v.cachedValue.getD 0, v)

/-- `BaseVariable.getValue()`: `Math.min(max, Math.max(min, _computeValue()))`. -/
def Variable.getValue {M : Type} (ops : ModifierOps M) (v : Variable M)
    (now : ℚ) : ℚ × Variable M :=
  let r := v.computeValue ops now
  (Min.min v.max (Max.max v.min r.1), r.2)

/-- `Variable.addModifier(m)`: push onto the linked list and invalidate the
memo (`_lastRecomputed = Clock.NEVER`). -/
def Variable.addModifier {M : Type} (v : Variable M) (m : M) : Variable M :=
  {v with modifiers := LLpush v.modifiers m, lastRecomputed := none}

/-- `Variable.removeModifier(m)`: call `LinkedList.remove` (whose boolean
result the source discards) and invalidate the memo. -/
def Variable.removeModifier {M : Type} [DecidableEq M] (v : Variable M)
    (m : M) : Variable M :=
  {v with modifiers := (LLremove v.modifiers m).1, lastRecomputed := none}

/-! ## variable.js: MonitoringModifier

A monitoring modifier holds references to other variables; the embedding
represents the references as indices into a store (`Nat → Variable M`) so
that a later mutation of an observed variable is seen by the modifier, as it
is through the shared references in the source. The observed variables are
`Variable`s over a fixed modifier type. The variadic `func` takes the list
of observed values. -/

structure MonitoringModifier where
  varIds : List Nat
  func : List ℚ → ℚ

/-- `MonitoringModifier.value()`:
`func(...variables.map(v => v.getValue()))`, recomputed fresh on every call.
`getValue` also refreshes each observed variable's memo; only the values are
needed here. -/
def MonitoringModifier.value {M : Type} (ops : ModifierOps M)
    (m : MonitoringModifier) (store : Nat → Variable M) (now : ℚ) : ℚ :=
  m.func (m.varIds.map fun i => ((store i).getValue ops now).1)

/-- `MonitoringModifier.canBeRemoved()`: always false. -/
def MonitoringModifier.canBeRemoved (_ : MonitoringModifier) : Bool := false

/-- The reduction `(...values) => values.reduce((a, b) => a + b)`:
`Array.reduce` without an initial value folds from the first element and
throws on an empty array; `sumOf` only ever passes a non-empty one, and the
unreachable empty case defaults to 0. -/
def reduceAdd : List ℚ → ℚ
  | [] => 0
  | x :: xs => xs.foldl (· + ·) x

/-- `MonitoringModifier.sumOf(...terms)`: fails on an empty term list,
otherwise the modifier summing the observed values. -/
def MonitoringModifier.sumOf (ids : List Nat) :
    Except String MonitoringModifier :=
  if ids.isEmpty then .error "Expected at least one variable"
  else .ok ⟨ids, reduceAdd⟩

/-! ## variable.js: FunctionalModifier.decaying

The factory uses `Math.log2` and `Math.pow`, so this part of the embedding is
over `ℝ`. Only the fields the claim is about are kept: the decay function,
the computed duration, and the inherited removability predicate
`progress ≥ duration` with `progress = now - createdAt`. -/

structure FunctionalModifierR where
  func : ℝ → ℝ
  duration : ℝ
  createdAt : ℝ

/-- `FunctionalModifier.canBeRemoved()` over `ℝ`. -/
def FunctionalModifierR.canBeRemovedAt (m : FunctionalModifierR) (now : ℝ) :
    Prop :=
  now - m.createdAt ≥ m.duration

/-- `FunctionalModifier.decaying(initialValue, halfLife, description,
insignificantValue)`: fails on a non-positive half-life; the default
insignificance threshold is `Math.sign(initialValue) * 0.5`; fails when the
threshold and the initial value have different signs; the duration is
`max(0, -halfLife * log2(insignificantValue / initialValue))` (0 when the
initial value is 0) and the function is
`t ↦ initialValue * 2 ^ (-t / halfLife)`. The modifier is created at clock
time `now`. -/
noncomputable def decaying (initialValue halfLife : ℝ)
    (insignificantValue : Option ℝ) (now : ℝ) :
    Except String FunctionalModifierR :=
  if halfLife ≤ 0 then .error "Half life must be positive"
  else
    let insignificant := insignificantValue.getD (Real.sign initialValue * 0.5)
    if Real.sign initialValue ≠ Real.sign insignificant then
      .error "Modifier will never reach the threshold"
    else
      let dur :=
        if initialValue = 0 then 0
        else Max.max 0 (-halfLife * Real.logb 2 (insignificant / initialValue))
      .ok ⟨fun t => initialValue * (2 : ℝ) ^ (-t / halfLife), dur, now⟩

/-! ## commonVariables.js: FurnaceVariable -/

/-- `FurnaceVariable`: base value, bounds, the min-heap of fuel modifiers,
and the time consumption was last resolved (`Clock.now()` at construction). -/
structure FurnaceVariable where
  baseValue : ℚ
  min : ℚ
  max : ℚ
  modifiers : Minheap ManualModifier
  lastRecomputed : ℚ

/-- The `FurnaceVariable` constructor (via `BaseVariable`): fails when
`min ≥ max`; the heap starts empty and `_lastRecomputed = Clock.now()`. -/
def FurnaceVariable.make (baseValue mn mx now : ℚ) :
    Except String FurnaceVariable :=
  if mn ≥ mx then .error "Min must be less than max"
  else .ok ⟨baseValue, mn, mx, Minheap.empty ManualModifier, now⟩

/-- `FurnaceVariable.addFuel(quantity, duration, description, weight)`:
fails on a non-positive duration; a zero quantity returns without inserting;
otherwise push a `ManualModifier` with `func = t ↦ quantity - t * burnRate`
where `burnRate = quantity / duration`, keyed by `weight ?? -burnRate`. -/
def FurnaceVariable.addFuel (f : FurnaceVariable) (quantity duration : ℚ)
    (weight : Option ℚ) : Except String FurnaceVariable :=
  if duration ≤ 0 then .error "Burn rate must be positive"
  else if quantity = 0 then .ok f
  else
    let burnRate := quantity / duration
    .ok
      {f with
        modifiers :=
          f.modifiers.push
            ⟨fun t => quantity - t * burnRate, duration, 0⟩
            (weight.getD (-burnRate))}

/-- The consumption loop of `FurnaceVariable.getValue()`: while time remains
and the heap is non-empty, the front (lowest-weight) fuel either absorbs all
remaining time into its progress (the source mutates the node held at the
heap root through its reference, modelled by rewriting slot 0), or is popped
with the rest of its duration subtracted from the remaining time. `fuel`
bounds the loop; each continuing iteration pops one node, so heap length + 1
steps suffice. -/
def consumeFuel (fuel : Nat) (h : Minheap ManualModifier) (t : ℚ) :
    Minheap ManualModifier :=
  match fuel with
  | 0 => h
  | fuel + 1 =>
    if t > 0 ∧ ¬h.isEmpty then
      match h.peekQ with
      | none => h
      | some m =>
        if m.duration - m.progress > t then
          ⟨h.elements.set 0 ⟨⟨m.func, m.duration, m.progress + t⟩,
            weightAt h.elements 0⟩⟩
        else
          match h.popQ with
          | none => h
          | some (_, h2) => consumeFuel fuel h2 (t - (m.duration - m.progress))
    else h

/-- `FurnaceVariable.getValue()`: resolve consumption for the time elapsed
since `_lastRecomputed`, then return `baseValue` plus the sum of the
remaining modifiers' `value()` (iterating the heap array in slot order).
This override of `BaseVariable.getValue` does not clamp to `[min, max]`. -/
def FurnaceVariable.getValue (f : FurnaceVariable) (now : ℚ) :
    ℚ × FurnaceVariable :=
  let h := consumeFuel (f.modifiers.length + 1) f.modifiers
    (now - f.lastRecomputed)
  (f.baseValue + (h.elements.map (fun n => n.obj.value)).sum,
    {f with modifiers := h, lastRecomputed := now})

/-! ## Clock re-entrancy

To settle what `Clock.update` does when a fired callback itself calls
`update`, callbacks here carry meaning: either a no-op or a nested
`update(delta)` on the same clock. The interpreter mirrors `Clock.update`
exactly; `fuel` bounds the total number of loop iterations across all nested
calls (`none` = fuel ran out, never reached with sufficient fuel). -/

inductive ReCallback where
  | noop : ReCallback
  | reenter : ℚ → ReCallback

structure ReClockState where
  elapsedRealMilliseconds : ℚ
  elapsedGameMinutes : ℚ
  callbacks : Minheap ReCallback

/-- The drain loop of `Clock.update` with interpreted callbacks: pop and run
each callback whose fire-time is ≤ the current game minutes. A `reenter d`
callback performs `Clock.update(d)` on the same clock — it adds `d` to the
elapsed milliseconds, recomputes the game minutes, and runs this same drain
loop — before the outer loop continues on the state it left behind. `fuel`
bounds the total number of iterations across all nesting levels. -/
def reDrain (fuel : Nat) (s : ReClockState) : Option ReClockState :=
  match fuel with
  | 0 => none
  | fuel + 1 =>
    match s.callbacks.peekWeightQ with
    | none => some s
    | some w =>
      if w ≤ s.elapsedGameMinutes then
        match s.callbacks.popQ with
        | none => some s
        | some (cb, h2) =>
          match cb with
          | .noop => reDrain fuel ⟨s.elapsedRealMilliseconds,
              s.elapsedGameMinutes, h2⟩
          | .reenter d =>
            let ms := s.elapsedRealMilliseconds + d
            let minutes := ms / realMillisecondsPerGameMinute
            match reDrain fuel ⟨ms, minutes, h2⟩ with
            | none => none
            | some s2 => reDrain fuel s2
      else some s

/-- `Clock.update(delta)` with interpreted callbacks: accumulate the delta,
recompute the game minutes, then drain due callbacks. -/
def reUpdate (fuel : Nat) (s : ReClockState) (delta : ℚ) :
    Option ReClockState :=
  let ms := s.elapsedRealMilliseconds + delta
  let minutes := ms / realMillisecondsPerGameMinute
  reDrain fuel ⟨ms, minutes, s.callbacks⟩

/-! ## Concrete scenario states used by the theorems -/

/-- Whether an `Except` computation succeeded (the call returned rather than
throwing). -/
def exceptOk {ε α : Type} : Except ε α → Bool
  | .ok _ => true
  | .error _ => false

/-- The furnace produced by the constructor followed by one
`addFuel(quantity, duration)` with no explicit weight: a single fuel node
with `func = t ↦ quantity - t * (quantity / duration)` and weight
`-(quantity / duration)`. -/
def furnaceSingleFuel (q d base mn mx t0 : ℚ) : FurnaceVariable :=
  ⟨base, mn, mx, ⟨[⟨⟨fun t => q - t * (q / d), d, 0⟩, -(q / d)⟩]⟩, t0⟩

/-- A furnace whose heap holds two fuel nodes in array order: the front
(slot 0) fuel `(q₁, d₁)` keyed by `w₁`, then `(q₂, d₂)` keyed by `w₂`, both
with the `func` and zero progress that `addFuel` gives them. -/
def furnaceTwoFuel (q₁ d₁ w₁ q₂ d₂ w₂ base mn mx t0 : ℚ) : FurnaceVariable :=
  ⟨base, mn, mx,
    ⟨[⟨⟨fun t => q₁ - t * (q₁ / d₁), d₁, 0⟩, w₁⟩,
      ⟨⟨fun t => q₂ - t * (q₂ / d₂), d₂, 0⟩, w₂⟩]⟩, t0⟩

/-- Furnace with `baseValue = 0`, bounds `[0, 5]`, one fuel
`addFuel(20, 10)`, constructed at clock time 0. -/
def furnaceC1 : FurnaceVariable := furnaceSingleFuel 20 10 0 0 5 0

/-- Furnace with `baseValue = 0`, bounds `[0, 100]`, one fuel
`addFuel(20, 10)`, constructed at clock time 0. -/
def furnaceC3 : FurnaceVariable := furnaceSingleFuel 20 10 0 0 100 0

/-- A freshly constructed furnace with bounds `[0, 100]`. -/
def furnaceEmpty : FurnaceVariable := ⟨0, 0, 100, ⟨[]⟩, 0⟩

/-- A variable at base 100 in `[0, 100]` carrying one `FixedModifier(-30)`. -/
def variableC2 : Variable FixedModifier := ⟨100, 0, 100, [⟨-30, none, 0⟩], none, none⟩

/-- A `FixedModifier(5)` that is not in `variableC2`. -/
def modifierAbsent : FixedModifier := ⟨5, none, 0⟩

/-- Two observed source variables: index 0 at value 30, all others at 40. -/
def storeC8 : Nat → Variable FixedModifier := fun i =>
  if i = 0 then ⟨30, 0, 100, [], none, none⟩ else ⟨40, 0, 100, [], none, none⟩

/-- The same store after `v1.addModifier(FixedModifier(10))`, which raises
`v1.getValue()` to 40. -/
def storeC8b : Nat → Variable FixedModifier := fun i =>
  if i = 0 then (storeC8 0).addModifier ⟨10, none, 0⟩ else storeC8 i

/-- The modifier built by `MonitoringModifier.sumOf(v0, v1)`. -/
def sumModC8 : MonitoringModifier := ⟨[0, 1], reduceAdd⟩

/-- A clock whose queue holds one callback at fire-time 1 that re-enters
`update(1000)` when invoked. -/
def reClockC6 : ReClockState := ⟨0, 0, ⟨[⟨.reenter 1000, 1⟩]⟩⟩

/-! ## Helper lemmas -/

theorem swapAt_length {T : Type} (l : List T) (i j : Nat) :
    (swapAt l i j).length = l.length := by
  unfold swapAt
  cases l.get? i <;> cases l.get? j <;> simp

theorem siftUp_length {T : Type} (fuel : Nat) (l : List (HeapNode T))
    (i : Nat) : (siftUp fuel l i).length = l.length := by
  induction fuel generalizing l i with
  | zero => rfl
  | succ fuel ih =>
    unfold siftUp
    split
    · rfl
    · by_cases hw : weightAt l ((i - 1) / 2) ≤ weightAt l i
      · simp [hw]
      · simp [hw, ih, swapAt_length]

theorem Minheap.push_length {T : Type} (h : Minheap T) (obj : T)
    (weight : ℚ) : (h.push obj weight).length = h.length + 1 := by
  simp [Minheap.push, Minheap.length, siftUp_length]

theorem removeFirstOcc_not_mem {T : Type} [DecidableEq T] (x : T)
    (l : List T) (h : x ∉ l) : removeFirstOcc x l = (l, false) := by
  induction l with
  | nil => rfl
  | cons y ys ih =>
    have hyx : y ≠ x := fun he => h (he ▸ List.mem_cons_self y ys)
    have hys : x ∉ ys := fun hm => h (List.mem_cons_of_mem y hm)
    simp [removeFirstOcc, hyx, ih hys]

theorem removeFirstOcc_mem {T : Type} [DecidableEq T] (x : T) (l : List T)
    (h : x ∈ l) :
    ∃ l₁ l₂, l = l₁ ++ x :: l₂ ∧ x ∉ l₁ ∧
      removeFirstOcc x l = (l₁ ++ l₂, true) := by
  induction l with
  | nil => cases h
  | cons y ys ih =>
    by_cases hyx : y = x
    · subst hyx
      exact ⟨[], ys, rfl, List.not_mem_nil y, by simp [removeFirstOcc]⟩
    · have hys : x ∈ ys := by
        rcases List.mem_cons.mp h with h1 | h1
        · exact absurd h1.symm hyx
        · exact h1
      obtain ⟨m₁, m₂, hdec, hnot, hrem⟩ := ih hys
      refine ⟨y :: m₁, m₂, by simp [hdec], ?_, ?_⟩
      · intro hm
        rcases List.mem_cons.mp hm with h1 | h1
        · exact hyx h1.symm
        · exact hnot h1
      · simp [removeFirstOcc, hyx, hrem]

theorem reduceAdd_eq_sum (l : List ℚ) : reduceAdd l = l.sum := by
  cases l with
  | nil => rfl
  | cons x xs =>
    simp only [reduceAdd, List.sum_cons]
    induction xs generalizing x with
    | nil => simp
    | cons y ys ih => simp [ih (x + y)]; ring

/-! ## Claim theorems -/

/-- Claim C9: the keep-while traversal (`LinkedList.filterIterate`) should
yield exactly the elements satisfying the predicate and leave exactly those
elements in the list. The first conjunct is the specified example, which the
code satisfies; the second evaluates the code at the failing input `[2, 4]`
with the keep-odd predicate: after unlinking the head `2`, the cursor is set
to the new head and the loop update immediately steps past it, so `4` is
neither yielded nor tested — the traversal yields `[]` but leaves `[4]`
linked even though `4` fails the predicate, contradicting the claim (and the
function's own documentation). -/
theorem C9_theorem :
    filterIterate (fun n => n % 2 == 1) ([1, 2, 3] : List Nat) =
      ([1, 3], [1, 3]) ∧
    filterIterate (fun n => n % 2 == 1) ([2, 4] : List Nat) = ([], [4]) := by
  exact ⟨rfl, rfl⟩

/-- Claim C10: `LinkedList.remove(obj)` unlinks exactly one element — the
last occurrence of `obj` — decrements the length by one and returns `true`
when `obj` is present; it returns `false` and leaves the list unchanged when
`obj` is absent. -/
theorem C10_theorem {T : Type} [DecidableEq T] (l : List T) (x : T) :
    (x ∈ l → ∃ l₁ l₂, l = l₁ ++ x :: l₂ ∧ x ∉ l₂ ∧
      LLremove l x = (l₁ ++ l₂, true) ∧ l.length = (l₁ ++ l₂).length + 1) ∧
    (x ∉ l → LLremove l x = (l, false)) := by
  constructor
  · intro hx
    obtain ⟨m₁, m₂, hdec, hnot, hrem⟩ :=
      removeFirstOcc_mem x l.reverse (List.mem_reverse.mpr hx)
    have hl : l = m₂.reverse ++ x :: m₁.reverse := by
      have h1 : l.reverse.reverse = (m₁ ++ x :: m₂).reverse :=
        congrArg List.reverse hdec
      simpa [List.reverse_append] using h1
    refine ⟨m₂.reverse, m₁.reverse, hl, ?_, ?_, ?_⟩
    · simpa [List.mem_reverse] using hnot
    · simp [LLremove, hrem, List.reverse_append]
    · rw [hl]; simp; omega
  · intro hx
    have h1 : removeFirstOcc x l.reverse = (l.reverse, false) :=
      removeFirstOcc_not_mem x l.reverse (by simpa [List.mem_reverse] using hx)
    simp [LLremove, h1]

/-- Witness for C10 at `remove(2)` on `[1, 2, 3, 2]`: the decomposition is
`[1, 2, 3] ++ 2 :: []`, and the result is `([1, 2, 3], true)`. -/
theorem C10_witness :
    ∃ l₁ l₂, ([1, 2, 3, 2] : List Nat) = l₁ ++ 2 :: l₂ ∧ 2 ∉ l₂ ∧
      LLremove [1, 2, 3, 2] 2 = (l₁ ++ l₂, true) ∧
      ([1, 2, 3, 2] : List Nat).length = (l₁ ++ l₂).length + 1 :=
  (C10_theorem [1, 2, 3, 2] 2).1 (by decide)

/-- Claim C2 counterexample: removing the absent `FixedModifier(5)` from a
variable holding only `FixedModifier(-30)` is a silent no-op — the call
returns normally with the modifier collection unchanged (the state is
identical, the memo already being invalid), not a hard failure as claimed:
neither `Variable.removeModifier` nor `LinkedList.remove` has a failure
path. -/
theorem C2_counterexample :
    variableC2.removeModifier modifierAbsent = variableC2 ∧
    variableC2.modifiers = [⟨-30, none, 0⟩] := ⟨rfl, rfl⟩

/-- Claim C2 amended: `removeModifier(m)` with `m` not in the active modifier
collection is a silent no-op on the collection (the boolean returned by
`LinkedList.remove` is discarded); the memo is still invalidated. -/
theorem C2_amended {M : Type} [DecidableEq M] (v : Variable M) (m : M)
    (h : m ∉ v.modifiers) :
    v.removeModifier m = {v with lastRecomputed := none} := by
  have h1 : removeFirstOcc m v.modifiers.reverse = (v.modifiers.reverse, false) :=
    removeFirstOcc_not_mem m v.modifiers.reverse
      (by simpa [List.mem_reverse] using h)
  simp [Variable.removeModifier, LLremove, h1]

/-- Witness for C2 at `variableC2` and the absent `FixedModifier(5)`. -/
theorem C2_witness :
    modifierAbsent ∉ variableC2.modifiers ∧
    variableC2.removeModifier modifierAbsent =
      {variableC2 with lastRecomputed := none} :=
  ⟨by decide, C2_amended variableC2 modifierAbsent (by decide)⟩

/-- Claim C7 counterexample: `addFuel` with a non-positive quantity does not
fail: `addFuel(-5, 10)` returns normally (and inserts a fuel modifier), and
`addFuel(0, 10)` returns normally without inserting anything. Only the
duration is validated. -/
theorem C7_counterexample :
    exceptOk (furnaceEmpty.addFuel (-5) 10 none) = true ∧
    furnaceEmpty.addFuel 0 10 none = .ok furnaceEmpty := ⟨rfl, rfl⟩

/-- Claim C7 amended: `addFuel(quantity, duration)` fails exactly when the
duration is non-positive (checked first); with a positive duration, a zero
quantity is accepted as a silent no-op inserting nothing, and any non-zero
quantity — negative included — is accepted and inserts exactly one fuel
modifier. -/
theorem C7_amended (f : FurnaceVariable) (q d : ℚ) (w : Option ℚ) :
    (exceptOk (f.addFuel q d w) = true ↔ 0 < d) ∧
    (0 < d → f.addFuel 0 d w = .ok f) ∧
    (0 < d → q ≠ 0 →
      (f.addFuel q d w).map (fun g => g.modifiers.length) =
        .ok (f.modifiers.length + 1)) := by
  refine ⟨?_, ?_, ?_⟩
  · by_cases hd : d ≤ 0
    · have h2 : ¬ (0 : ℚ) < d := not_lt.mpr hd
      simp [FurnaceVariable.addFuel, hd, exceptOk, h2]
    · have h2 : (0 : ℚ) < d := not_le.mp hd
      by_cases hq : q = 0 <;>
        simp [FurnaceVariable.addFuel, hd, hq, exceptOk, h2]
  · intro hd
    simp [FurnaceVariable.addFuel, not_le.mpr hd]
  · intro hd hq
    simp [FurnaceVariable.addFuel, not_le.mpr hd, hq, Except.map,
      Minheap.push_length]

/-- Witness for C7 at `addFuel(-5, 10)` on an empty furnace: the call
succeeds and the heap grows to one node. -/
theorem C7_witness :
    (exceptOk (furnaceEmpty.addFuel (-5) 10 none) = true ↔ (0 : ℚ) < 10) ∧
    ((0 : ℚ) < 10 → (-5 : ℚ) ≠ 0 →
      (furnaceEmpty.addFuel (-5) 10 none).map (fun g => g.modifiers.length) =
        .ok (furnaceEmpty.modifiers.length + 1)) :=
  ⟨(C7_amended furnaceEmpty (-5) 10 none).1,
    (C7_amended furnaceEmpty (-5) 10 none).2.2⟩

/-- Claim C6 counterexample: a callback that re-enters `Clock.update` is
executed, not rejected: starting from a queue holding one callback at
fire-time 1 that itself calls `update(1000)`, the outer `update(2000)`
returns normally with both deltas applied (3000 real milliseconds, 1.5 game
minutes) and the queue drained — there is no re-entrancy guard and no error
path in `Clock.update`. -/
theorem C6_counterexample :
    (reUpdate 10 reClockC6 2000).map
      (fun s => (s.elapsedRealMilliseconds, s.elapsedGameMinutes,
        s.callbacks.length)) =
      some (3000, 3 / 2, 0) := by
  norm_num [reUpdate, reDrain, reClockC6, Minheap.peekWeightQ, Minheap.popQ,
    Minheap.length, realMillisecondsPerGameMinute]

/-- Claim C6 amended: invoking `update` from within a currently-firing
callback is executed normally rather than failing: the nested call applies
its delta and drains due callbacks on the shared clock state, and the outer
loop then continues; non-reentrancy is only a documented contract in the
source. For a queue holding one re-entering callback that is due, the final
state has both deltas accumulated and the queue empty. -/
theorem C6_amended (ms mins t d delta : ℚ)
    (h : t ≤ (ms + delta) / realMillisecondsPerGameMinute) :
    reUpdate 3 ⟨ms, mins, ⟨[⟨.reenter d, t⟩]⟩⟩ delta =
      some ⟨ms + delta + d,
        (ms + delta + d) / realMillisecondsPerGameMinute, ⟨[]⟩⟩ := by
  simp [reUpdate, reDrain, Minheap.peekWeightQ, Minheap.popQ, h]

/-- Witness for C6: the callback at fire-time 1 fires during `update(2000)`
(new time 1 game minute) and its nested `update(1000)` is executed. -/
theorem C6_witness :
    reUpdate 3 ⟨0, 0, ⟨[⟨.reenter 1000, 1⟩]⟩⟩ 2000 =
      some ⟨0 + 2000 + 1000,
        (0 + 2000 + 1000) / realMillisecondsPerGameMinute, ⟨[]⟩⟩ :=
  C6_amended 0 0 1 1000 2000 (by norm_num [realMillisecondsPerGameMinute])

/-- Claim C1 counterexample: a `FurnaceVariable` constructed with bounds
`[0, 5]` and given `addFuel(20, 10)` answers `getValue() = 20 > max` with no
clock advance: `FurnaceVariable.getValue` overrides `BaseVariable.getValue`
and returns the sum without clamping, so `min ≤ getValue() ≤ max` does not
hold for furnaces. -/
theorem C1_counterexample :
    (FurnaceVariable.make 0 0 5 0).bind (fun f => f.addFuel 20 10 none) =
      .ok furnaceC1 ∧
    furnaceC1.max = 5 ∧ (furnaceC1.getValue 0).1 = 20 ∧
    ¬ (furnaceC1.getValue 0).1 ≤ furnaceC1.max := by
  refine ⟨rfl, rfl, ?_, ?_⟩ <;>
    norm_num [FurnaceVariable.getValue, consumeFuel, furnaceC1,
      furnaceSingleFuel, ManualModifier.value, ManualModifier.canBeRemoved,
      Minheap.length, Minheap.isEmpty]

/-- Claim C1 amended: for every `Variable` state whose construction invariant
`min ≤ max` holds, `getValue()` (= `BaseVariable.getValue`, which clamps
`_computeValue()`) lies in `[min, max]` after any sequence of operations;
`FurnaceVariable.getValue`, however, overrides `BaseVariable.getValue` and
returns `baseValue` plus the sum of the remaining fuels' `value()` without
clamping, so its result can lie outside `[min, max]`. -/
theorem C1_amended :
    (∀ (M : Type) (ops : ModifierOps M) (v : Variable M) (now : ℚ),
      v.min ≤ v.max →
      v.min ≤ (v.getValue ops now).1 ∧ (v.getValue ops now).1 ≤ v.max) ∧
    (∀ (f : FurnaceVariable) (now : ℚ),
      (f.getValue now).1 = f.baseValue +
        ((consumeFuel (f.modifiers.length + 1) f.modifiers
          (now - f.lastRecomputed)).elements.map
            (fun n => n.obj.value)).sum) := by
  constructor
  · intro M ops v now h
    unfold Variable.getValue
    exact ⟨le_min h (le_max_left _ _), min_le_left _ _⟩
  · intro f now
    rfl

/-- Witness for C1 at `variableC2` (base 100, bounds `[0, 100]`, one
`FixedModifier(-30)`) queried at time 0. -/
theorem C1_witness :
    variableC2.min ≤ (variableC2.getValue FixedModifier.ops 0).1 ∧
    (variableC2.getValue FixedModifier.ops 0).1 ≤ variableC2.max :=
  C1_amended.1 FixedModifier FixedModifier.ops variableC2 0 (by norm_num [variableC2])

/-- Claim C3: fuel is consumed sequentially in priority order from the front
of the queue. The first conjunct: the constructor followed by
`addFuel(q, d)` yields the single-fuel furnace. The second: while the
elapsed time `e` is below the front fuel's duration, the fuel's progress
advances by `e` and `getValue() = base + q - e * (q / d)`. The third: once
`e` reaches the duration the fuel is popped and `getValue()` returns to
`baseValue`. The fourth: with two fuels, the lower-weight one sits at the
front of the queue even when added second. The fifth: with two fuels, an
elapsed time `e` that reaches the front fuel's duration pops it and carries
the remainder `e - d₁` into the next fuel, whose progress advances by
exactly that remainder, and `getValue()` is `base` plus that fuel's value at
the carried progress. The remaining conjuncts replay the concrete scenarios:
`addFuel(20, 10)`, `Clock.update(10000)` reaches 5 game minutes and
`getValue()` is 10; updating by a further 20000 ms reaches minute 15 and
`getValue()` is back to the base value 0; and with default weights the
faster-burning fuel `(6, 2)` added second is consumed first — after 5
minutes it is spent and the remainder 3 has advanced the slower fuel
`(20, 10)` to progress 3, giving `getValue() = 14`. -/
theorem C3_theorem :
    (∀ q d base mn mx t0 : ℚ, mn < mx → 0 < d → q ≠ 0 →
      (FurnaceVariable.make base mn mx t0).bind (fun f => f.addFuel q d none) =
        .ok (furnaceSingleFuel q d base mn mx t0)) ∧
    (∀ q d base mn mx t0 e : ℚ, 0 < d → 0 ≤ e → e < d →
      ((furnaceSingleFuel q d base mn mx t0).getValue (t0 + e)).1 =
        base + (q - e * (q / d))) ∧
    (∀ q d base mn mx t0 e : ℚ, 0 < d → d ≤ e →
      ((furnaceSingleFuel q d base mn mx t0).getValue (t0 + e)).1 = base) ∧
    (∀ q₁ d₁ wA q₂ d₂ wB base mn mx t0 : ℚ, mn < mx → 0 < d₁ → 0 < d₂ →
      q₁ ≠ 0 → q₂ ≠ 0 → wB < wA →
      ((FurnaceVariable.make base mn mx t0).bind
          (fun f => f.addFuel q₁ d₁ (some wA))).bind
        (fun f => f.addFuel q₂ d₂ (some wB)) =
        .ok (furnaceTwoFuel q₂ d₂ wB q₁ d₁ wA base mn mx t0)) ∧
    (∀ q₁ d₁ w₁ q₂ d₂ w₂ base mn mx t0 e : ℚ, 0 < d₁ → 0 < d₂ → d₁ ≤ e →
      e - d₁ < d₂ →
      ((furnaceTwoFuel q₁ d₁ w₁ q₂ d₂ w₂ base mn mx t0).getValue
          (t0 + e)).1 = base + (q₂ - (e - d₁) * (q₂ / d₂)) ∧
      ((furnaceTwoFuel q₁ d₁ w₁ q₂ d₂ w₂ base mn mx t0).getValue
          (t0 + e)).2.modifiers.elements =
        [⟨⟨fun t => q₂ - t * (q₂ / d₂), d₂, e - d₁⟩, w₂⟩]) ∧
    (ClockState.init.update 10000).1.now = 5 ∧
    (furnaceC3.getValue 5).1 = 10 ∧
    ((ClockState.init.update 10000).1.update 20000).1.now = 15 ∧
    (((furnaceC3.getValue 5).2).getValue 15).1 = 0 ∧
    ((FurnaceVariable.make 0 0 100 0).bind
        (fun f => f.addFuel 20 10 none)).bind (fun f => f.addFuel 6 2 none) =
      .ok (furnaceTwoFuel 6 2 (-3) 20 10 (-2) 0 0 100 0) ∧
    ((furnaceTwoFuel 6 2 (-3) 20 10 (-2) 0 0 100 0).getValue 5).1 = 14 ∧
    ((furnaceTwoFuel 6 2 (-3) 20 10 (-2) 0 0 100 0).getValue
        5).2.modifiers.elements =
      [⟨⟨fun t => 20 - t * (20 / 10), 10, 3⟩, -2⟩] := by
  refine ⟨?_, ?_, ?_, ?_, ?_, ?_, ?_, ?_, ?_, ?_, ?_, ?_⟩
  · intro q d base mn mx t0 hmn hd hq
    simp [FurnaceVariable.make, not_le.mpr hmn, FurnaceVariable.addFuel,
      not_le.mpr hd, hq, Minheap.push, Minheap.empty, siftUp, Except.bind,
      furnaceSingleFuel]
  · intro q d base mn mx t0 e hd he hed
    rcases eq_or_lt_of_le he with he0 | hpos
    · simp [FurnaceVariable.getValue, furnaceSingleFuel, consumeFuel,
        Minheap.length, Minheap.isEmpty, ← he0, ManualModifier.value,
        ManualModifier.canBeRemoved, not_le.mpr hd]
    · simp only [FurnaceVariable.getValue, furnaceSingleFuel, consumeFuel,
        Minheap.length, Minheap.isEmpty, Minheap.peekQ, weightAt]
      rw [add_sub_cancel_left]
      simp [hpos, hed, ManualModifier.value, ManualModifier.canBeRemoved,
        not_le.mpr hed]
  · intro q d base mn mx t0 e hd hde
    simp only [FurnaceVariable.getValue, furnaceSingleFuel, consumeFuel,
      Minheap.length, Minheap.isEmpty, Minheap.peekQ, Minheap.popQ, weightAt]
    rw [add_sub_cancel_left]
    have hpos : 0 < e := lt_of_lt_of_le hd hde
    simp [hpos, not_lt.mpr hde, consumeFuel, Minheap.isEmpty]
  · intro q₁ d₁ wA q₂ d₂ wB base mn mx t0 hmn hd₁ hd₂ hq₁ hq₂ hw
    simp [FurnaceVariable.make, not_le.mpr hmn, FurnaceVariable.addFuel,
      not_le.mpr hd₁, not_le.mpr hd₂, hq₁, hq₂, Except.bind, Minheap.push,
      Minheap.empty, siftUp, swapAt, weightAt, List.get?, not_le.mpr hw,
      furnaceTwoFuel]
  · intro q₁ d₁ w₁ q₂ d₂ w₂ base mn mx t0 e hd₁ hd₂ hde hcarry
    have hpos : 0 < e := lt_of_lt_of_le hd₁ hde
    have hnf : ¬ d₁ - 0 > e := by linarith
    have hv2 : ¬ d₂ ≤ e - d₁ := not_le.mpr hcarry
    rcases eq_or_lt_of_le hde with heq | hlt
    · constructor <;>
        · simp only [FurnaceVariable.getValue, furnaceTwoFuel, consumeFuel,
            Minheap.length, Minheap.isEmpty, Minheap.peekQ, Minheap.popQ,
            weightAt, siftDown, List.getLast?, List.dropLast]
          rw [add_sub_cancel_left, ← heq]
          simp [hd₁, not_le.mpr hd₂, ManualModifier.value,
            ManualModifier.canBeRemoved]
    · constructor <;>
        · simp only [FurnaceVariable.getValue, furnaceTwoFuel, consumeFuel,
            Minheap.length, Minheap.isEmpty, Minheap.peekQ, Minheap.popQ,
            weightAt, siftDown, List.getLast?, List.dropLast]
          rw [add_sub_cancel_left]
          simp [hpos, hnf, not_lt.mpr hde, sub_pos.mpr hlt, hcarry, hv2,
            ManualModifier.value, ManualModifier.canBeRemoved]
  · norm_num [ClockState.update, ClockState.init, ClockState.now,
      drainCallbacks, Minheap.empty, Minheap.length, Minheap.peekWeightQ,
      realMillisecondsPerGameMinute]
  · norm_num [FurnaceVariable.getValue, furnaceC3, furnaceSingleFuel,
      consumeFuel, Minheap.length, Minheap.isEmpty, Minheap.peekQ, weightAt,
      ManualModifier.value, ManualModifier.canBeRemoved]
  · norm_num [ClockState.update, ClockState.init, ClockState.now,
      drainCallbacks, Minheap.empty, Minheap.length, Minheap.peekWeightQ,
      realMillisecondsPerGameMinute]
  · norm_num [FurnaceVariable.getValue, furnaceC3, furnaceSingleFuel,
      consumeFuel, Minheap.length, Minheap.isEmpty, Minheap.peekQ,
      Minheap.popQ, weightAt, ManualModifier.value,
      ManualModifier.canBeRemoved]
  · norm_num [FurnaceVariable.make, FurnaceVariable.addFuel, Except.bind,
      Minheap.push, Minheap.empty, siftUp, swapAt, weightAt, List.get?,
      furnaceTwoFuel]
  · norm_num [FurnaceVariable.getValue, furnaceTwoFuel, consumeFuel,
      Minheap.length, Minheap.isEmpty, Minheap.peekQ, Minheap.popQ, weightAt,
      siftDown, List.getLast?, List.dropLast, ManualModifier.value,
      ManualModifier.canBeRemoved]
  · norm_num [FurnaceVariable.getValue, furnaceTwoFuel, consumeFuel,
      Minheap.length, Minheap.isEmpty, Minheap.peekQ, Minheap.popQ, weightAt,
      siftDown, List.getLast?, List.dropLast, ManualModifier.value,
      ManualModifier.canBeRemoved]

/-- Witness for C3: the single-fuel law at `q = 20`, `d = 10`, base 0,
bounds `[0, 100]`, created at time 0 — after 5 minutes the value is
`20 - 5 * 2 = 10`, after 15 the fuel is exhausted; the priority law at the
fuels `(20, 10)` weight -2 and `(6, 2)` weight -3 — the lower-weight fuel
ends up in front; the carry law at those fuels with 5 minutes elapsed — the
front fuel's 2 minutes are spent and the remaining 3 advance the next
fuel. -/
theorem C3_witness :
    (((furnaceSingleFuel 20 10 0 0 100 0).getValue (0 + 5)).1 =
      0 + (20 - 5 * (20 / 10)) ∧
    ((furnaceSingleFuel 20 10 0 0 100 0).getValue (0 + 15)).1 = 0) ∧
    ((FurnaceVariable.make 0 0 100 0).bind
        (fun f => f.addFuel 20 10 (some (-2)))).bind
      (fun f => f.addFuel 6 2 (some (-3))) =
      .ok (furnaceTwoFuel 6 2 (-3) 20 10 (-2) 0 0 100 0) ∧
    ((furnaceTwoFuel 6 2 (-3) 20 10 (-2) 0 0 100 0).getValue (0 + 5)).1 =
      0 + (20 - (5 - 2) * (20 / 10)) ∧
    ((furnaceTwoFuel 6 2 (-3) 20 10 (-2) 0 0 100 0).getValue
        (0 + 5)).2.modifiers.elements =
      [⟨⟨fun t => 20 - t * (20 / 10), 10, 5 - 2⟩, -2⟩] :=
  ⟨⟨C3_theorem.2.1 20 10 0 0 100 0 5 (by norm_num) (by norm_num)
      (by norm_num),
    C3_theorem.2.2.1 20 10 0 0 100 0 15 (by norm_num) (by norm_num)⟩,
    C3_theorem.2.2.2.1 20 10 (-2) 6 2 (-3) 0 0 100 0 (by norm_num)
      (by norm_num) (by norm_num) (by norm_num) (by norm_num) (by norm_num),
    (C3_theorem.2.2.2.2.1 6 2 (-3) 20 10 (-2) 0 0 100 0 5 (by norm_num)
      (by norm_num) (by norm_num) (by norm_num)).1,
    (C3_theorem.2.2.2.2.1 6 2 (-3) 20 10 (-2) 0 0 100 0 5 (by norm_num)
      (by norm_num) (by norm_num) (by norm_num)).2⟩

/-- Claim C5: scheduling a callback for a strictly future time on a clock
with an empty queue stores it; advancing the clock so that the new time
reaches (or passes) the fire-time invokes it exactly once during that
`update`, and a further `update(0)` fires nothing; a callback scheduled for
a time ≤ `now()` is invoked synchronously by `schedule` itself and never
queued. -/
theorem C5_theorem :
    (∀ (s : ClockState) (cb : Nat) (time : ℚ), time ≤ s.now →
      s.schedule cb time = (s, [cb])) ∧
    (∀ (ms mins t : ℚ) (cb : Nat) (delta : ℚ), mins < t →
      t ≤ (ms + delta) / realMillisecondsPerGameMinute →
      (ClockState.schedule ⟨ms, mins, ⟨[]⟩⟩ cb t).2 = [] ∧
      (ClockState.schedule ⟨ms, mins, ⟨[]⟩⟩ cb t).1.callbacks.elements =
        [⟨cb, t⟩] ∧
      ((ClockState.schedule ⟨ms, mins, ⟨[]⟩⟩ cb t).1.update delta).2 = [cb] ∧
      ((ClockState.schedule ⟨ms, mins, ⟨[]⟩⟩ cb t).1.update
        delta).1.callbacks.elements = [] ∧
      (((ClockState.schedule ⟨ms, mins, ⟨[]⟩⟩ cb t).1.update
        delta).1.update 0).2 = []) := by
  constructor
  · intro s cb time h
    simp [ClockState.schedule, h]
  · intro ms mins t cb delta hfut hdue
    have hns : ¬ t ≤ mins := not_le.mpr hfut
    refine ⟨?_, ?_, ?_, ?_, ?_⟩ <;>
      simp [ClockState.schedule, hns, ClockState.update, ClockState.now,
        Minheap.push, Minheap.length, Minheap.peekWeightQ, Minheap.popQ,
        siftUp, drainCallbacks, hdue]

/-- Witness for C5: callback 7 scheduled at minute 5 on a fresh clock fires
exactly once during `update(10000)` (10000 ms = 5 game minutes) and not
during the following `update(0)`. -/
theorem C5_witness :
    (ClockState.schedule ⟨0, 0, ⟨[]⟩⟩ 7 5).2 = [] ∧
    (ClockState.schedule ⟨0, 0, ⟨[]⟩⟩ 7 5).1.callbacks.elements = [⟨7, 5⟩] ∧
    ((ClockState.schedule ⟨0, 0, ⟨[]⟩⟩ 7 5).1.update 10000).2 = [7] ∧
    ((ClockState.schedule ⟨0, 0, ⟨[]⟩⟩ 7 5).1.update
      10000).1.callbacks.elements = [] ∧
    (((ClockState.schedule ⟨0, 0, ⟨[]⟩⟩ 7 5).1.update 10000).1.update 0).2 =
      [] :=
  C5_theorem.2 0 0 5 7 10000 (by norm_num)
    (by norm_num [realMillisecondsPerGameMinute])

/-- Claim C8: a `MonitoringModifier.sumOf` over source variables returns, on
every `value()` query, the sum of the sources' current `getValue()` results;
it recomputes fresh from the store on every call, so any change to a source
is tracked without invalidation, and `canBeRemoved()` is always false. The
closing conjuncts replay the example: sources at 30 and 40 give 70, and
after `addModifier(FixedModifier(10))` on the first source the same modifier
answers 80. -/
theorem C8_theorem :
    (∀ (ids : List Nat) (m : MonitoringModifier),
      MonitoringModifier.sumOf ids = .ok m →
      ∀ (M : Type) (ops : ModifierOps M) (store : Nat → Variable M) (now : ℚ),
        m.value ops store now =
          (ids.map fun i => ((store i).getValue ops now).1).sum) ∧
    (∀ m : MonitoringModifier, m.canBeRemoved = false) ∧
    MonitoringModifier.sumOf [0, 1] = .ok sumModC8 ∧
    sumModC8.value FixedModifier.ops storeC8 0 = 70 ∧
    sumModC8.value FixedModifier.ops storeC8b 0 = 80 := by
  refine ⟨?_, fun _ => rfl, rfl, ?_, ?_⟩
  · intro ids m hok M ops store now
    unfold MonitoringModifier.sumOf at hok
    split at hok
    · cases hok
    · cases hok
      simp [MonitoringModifier.value, reduceAdd_eq_sum]
  · have hns : (none : Option ℚ) ≠ some (0 : ℚ) := fun h => by cases h
    norm_num [MonitoringModifier.value, sumModC8, storeC8, Variable.getValue,
      Variable.computeValue, filterIterate, filterGo, reduceAdd, min_def,
      max_def, hns]
  · have hns : (none : Option ℚ) ≠ some (0 : ℚ) := fun h => by cases h
    norm_num [MonitoringModifier.value, sumModC8, storeC8b, storeC8,
      Variable.addModifier, Variable.getValue, Variable.computeValue,
      filterIterate, filterGo, reduceAdd, min_def, max_def, LLpush, hns,
      FixedModifier.ops, FixedModifier.valueAt, FixedModifier.canBeRemovedAt]

/-- Witness for C8: applying the general sum law at `sumOf [0, 1]` and the
store with sources at 30 and 40. -/
theorem C8_witness :
    sumModC8.value FixedModifier.ops storeC8 0 =
      (([0, 1] : List Nat).map
        fun i => ((storeC8 i).getValue FixedModifier.ops 0).1).sum :=
  C8_theorem.1 [0, 1] sumModC8 rfl FixedModifier FixedModifier.ops storeC8 0

/-- Claim C4 counterexample: with no explicit insignificance threshold,
`FunctionalModifier.decaying(initialValue = 2, halfLife = 1)` computes a
duration of 2, not `halfLife = 1`: the default threshold is the absolute
value 0.5 (`Math.sign(initialValue) * 0.5`), not 50% of the initial value,
so the duration is the time to decay from 2 down to 0.5, which is two half
lives. -/
theorem C4_counterexample :
    (decaying 2 1 none 0).map FunctionalModifierR.duration = .ok 2 ∧
    (2 : ℝ) ≠ 1 := by
  have hsign2 : Real.sign 2 = 1 := Real.sign_of_pos (by norm_num)
  have hsign05 : Real.sign ((1 : ℝ) / 2) = 1 := Real.sign_of_pos (by norm_num)
  have hpow : (2 : ℝ) ^ (-2 : ℝ) = 1 / 4 := by
    have h1 := Real.rpow_intCast (2 : ℝ) (-2)
    rw [show (((-2 : ℤ) : ℝ)) = (-2 : ℝ) by norm_num] at h1
    rw [h1]; norm_num
  have hlogb : Real.logb 2 ((1 : ℝ) / 4) = -2 := by
    rw [← hpow, Real.logb_rpow (by norm_num) (by norm_num)]
  have hmax : (0 : ℝ) ⊔ 2 = 2 := max_eq_right (by norm_num)
  refine ⟨?_, by norm_num⟩
  norm_num [decaying, hsign2, hsign05, Except.map, hlogb, hmax]

/-- Claim C4 amended: with no explicit threshold the factory uses
`sign(initialValue) * 0.5` — an absolute threshold of one half, not 50% of
the initial value. For any non-zero initial value `v` and positive half-life
`h` the computed duration is `max 0 (h * log2(2 * |v|))` (which equals `h`
only when `|v| = 1`), and the modifier becomes removable exactly when the
elapsed time since creation reaches that duration. -/
theorem C4_amended (v h t0 : ℝ) (hv : v ≠ 0) (hh : 0 < h) :
    ∃ m : FunctionalModifierR,
      decaying v h none t0 = .ok m ∧
      m.func = (fun t => v * (2 : ℝ) ^ (-t / h)) ∧
      m.duration = Max.max 0 (h * Real.logb 2 (2 * |v|)) ∧
      ∀ now : ℝ, m.canBeRemovedAt now ↔ now - t0 ≥ m.duration := by
  have hs : Real.sign (Real.sign v * 0.5) = Real.sign v := by
    rcases hv.lt_or_lt with hneg | hpos
    · rw [Real.sign_of_neg hneg, Real.sign_of_neg (by norm_num)]
    · rw [Real.sign_of_pos hpos, Real.sign_of_pos (by norm_num)]
  have harg : Real.sign v * 0.5 / v = (2 * |v|)⁻¹ := by
    rcases hv.lt_or_lt with hneg | hpos
    · rw [Real.sign_of_neg hneg, abs_of_neg hneg]
      field_simp
      ring
    · rw [Real.sign_of_pos hpos, abs_of_pos hpos]
      field_simp
      ring
  have hok : decaying v h none t0 =
      .ok ⟨fun t => v * (2 : ℝ) ^ (-t / h),
        Max.max 0 (h * Real.logb 2 (2 * |v|)), t0⟩ := by
    unfold decaying
    rw [if_neg (not_le.mpr hh)]
    simp only [Option.getD]
    rw [if_neg (by rw [hs]; exact fun hc => hc rfl), if_neg hv, harg,
      Real.logb_inv, neg_mul_neg]
  exact ⟨_, hok, rfl, rfl, fun now => Iff.rfl⟩

/-- Witness for C4 at `initialValue = 2`, `halfLife = 1`, created at time 0:
the factory succeeds and its duration is `max 0 (log2 4) = 2`. -/
theorem C4_witness :
    ∃ m : FunctionalModifierR,
      decaying 2 1 none 0 = .ok m ∧
      m.func = (fun t => (2 : ℝ) * (2 : ℝ) ^ (-t / 1)) ∧
      m.duration = Max.max 0 (1 * Real.logb 2 (2 * |(2 : ℝ)|)) ∧
      ∀ now : ℝ, m.canBeRemovedAt now ↔ now - 0 ≥ m.duration :=
  C4_amended 2 1 0 (by norm_num) (by norm_num)

end KonsSim
